import Mathlib

/-!
Verification development for the DhanTvPulse alert ingestion pipeline.

The repository has two deployment variants of the same conceptual pipeline:

* `python-backend/webhook_listener.py` (and its near-identical copy
  `webhook_port80.py`): a long-lived Flask process with an in-memory list
  `alerts_received`, the `AlertProcessor` methods `process_alert`,
  `print_alert_details`, `parse_symbol_info`, `get_recent_alerts`, and the
  route handlers `webhook`, `status`, `get_alerts`.

* `tradingview-webhook-aws/lambda_function.py`: a stateless handler with
  `handle_webhook`, `process_trading_alert`, `store_alert_in_db`,
  `create_error_response`.

Python strings are embedded as `List Char`; JSON values as the inductive
`JValue`; Python dicts as association lists with insertion-order update
semantics.  Python exceptions are made explicit: code paths that raise inside
a `try` block step to the corresponding `except` result, and fallible
operations return `Except Unit _`.
-/

/-- A Python string, embedded as its list of characters. -/
abbrev Str := List Char

/-- The option type of an instrument, per the spec's enum.  The source keeps
`option_type` as a string that is `""` until a marker resolves; the unresolved
empty string is represented by `UNKNOWN`. -/
inductive OptionType where
  | PUT
  | CALL
  | UNKNOWN
  deriving DecidableEq, Repr

/-- The instrument descriptor produced by `parse_symbol_info`: the four local
variables `index_name`, `expiry_date`, `option_type`, `strike_price` as they
stand when the function reaches its final display step (or its `except`
handler). -/
structure InstrumentDescriptor where
  underlying : Str
  expiry : Str
  optionType : OptionType
  strike : Str
  deriving DecidableEq, Repr

/-- The descriptor on every path where parsing degrades: all fields keep their
initial empty values (`option_type = ""`, i.e. `UNKNOWN`). -/
def emptyDescriptor : InstrumentDescriptor :=
  { underlying := [], expiry := [], optionType := .UNKNOWN, strike := [] }

/-- Python's `str.split(sep)` for a single-character separator: splits at
every occurrence, producing `count + 1` parts. -/
def splitOnChar (c : Char) : Str → List Str
  | [] => [[]]
  | x :: xs =>
    if x = c then
      [] :: splitOnChar c xs
    else
      match splitOnChar c xs with
      | [] => [[x]]
      | y :: ys => (x :: y) :: ys

/-- `AlertProcessor.parse_symbol_info` (webhook_listener.py lines 118-172;
byte-identical logic in webhook_port80.py lines 60-93).

The source checks `'P' in symbol` first; on a two-way split it sets `prefix`,
`strike_price`, `option_type`; otherwise `prefix` is never assigned, so the
later `len(prefix) >= 6` raises `UnboundLocalError`, which the enclosing
`try/except` catches — those paths land in the empty descriptor.  The same
happens when neither marker occurs.  `prefix[:-6]` / `prefix[-6:]` for a
prefix of length ≥ 6 are the first `len - 6` and the last `6` characters. -/
def parse_symbol_info (symbol : Str) : InstrumentDescriptor :=
  if 'P' ∈ symbol then
    match splitOnChar 'P' symbol with
    | [pre, strike] =>
      if 6 ≤ pre.length then
        { underlying := pre.take (pre.length - 6),
          expiry := pre.drop (pre.length - 6),
          optionType := .PUT, strike := strike }
      else
        { underlying := [], expiry := [], optionType := .PUT, strike := strike }
    | _ => emptyDescriptor
  else if 'C' ∈ symbol then
    match splitOnChar 'C' symbol with
    | [pre, strike] =>
      if 6 ≤ pre.length then
        { underlying := pre.take (pre.length - 6),
          expiry := pre.drop (pre.length - 6),
          optionType := .CALL, strike := strike }
      else
        { underlying := [], expiry := [], optionType := .CALL, strike := strike }
    | _ => emptyDescriptor
  else emptyDescriptor

example : parse_symbol_info "NIFTY250930P25800".toList =
    { underlying := "NIFTY".toList, expiry := "250930".toList,
      optionType := .PUT, strike := "25800".toList } := by decide

example : parse_symbol_info "NIFTY250930C25800".toList =
    { underlying := "NIFTY".toList, expiry := "250930".toList,
      optionType := .CALL, strike := "25800".toList } := by decide

example : parse_symbol_info "PXP".toList = emptyDescriptor := by decide

example : parse_symbol_info "AB12P9".toList =
    { underlying := [], expiry := [], optionType := .PUT, strike := "9".toList } := by
  decide

theorem splitOnChar_ne_nil (c : Char) (l : Str) : splitOnChar c l ≠ [] := by
  induction l with
  | nil => simp [splitOnChar]
  | cons x xs ih =>
    by_cases h : x = c
    · simp [splitOnChar, h]
    · simp only [splitOnChar, if_neg h]
      cases hs : splitOnChar c xs with
      | nil => simp
      | cons y ys => simp

theorem splitOnChar_not_mem {c : Char} {l : Str} (h : c ∉ l) :
    splitOnChar c l = [l] := by
  induction l with
  | nil => rfl
  | cons x xs ih =>
    have hx : x ≠ c := fun hx => h (hx ▸ List.mem_cons_self x xs)
    have hxs : c ∉ xs := fun hm => h (List.mem_cons_of_mem x hm)
    simp only [splitOnChar, if_neg hx, ih hxs]

theorem splitOnChar_single {c : Char} {a b : Str} (ha : c ∉ a) (hb : c ∉ b) :
    splitOnChar c (a ++ c :: b) = [a, b] := by
  induction a with
  | nil => simp [splitOnChar, splitOnChar_not_mem hb]
  | cons x xs ih =>
    have hx : x ≠ c := fun hx => ha (hx ▸ List.mem_cons_self x xs)
    have hxs : c ∉ xs := fun hm => ha (List.mem_cons_of_mem x hm)
    simp only [List.cons_append, splitOnChar, if_neg hx, List.append_eq, ih hxs]

theorem splitOnChar_length (c : Char) (l : Str) :
    (splitOnChar c l).length = l.count c + 1 := by
  induction l with
  | nil => simp [splitOnChar]
  | cons x xs ih =>
    by_cases h : x = c
    · subst h
      simp [splitOnChar, ih, List.count_cons]
    · simp only [splitOnChar, if_neg h]
      cases hs : splitOnChar c xs with
      | nil => exact absurd hs (splitOnChar_ne_nil c xs)
      | cons y ys =>
        rw [hs] at ih
        simp only [List.length_cons] at ih ⊢
        rw [List.count_cons]
        simp [h, ih]

/-! ## JSON values and Python dicts -/

/-- A parsed JSON value, as `json.loads` / Flask's `request.get_json()`
produce it.  Numbers are modelled as integers (every payload in the repository
uses strings and booleans only).  Objects are association lists in insertion
order, as Python dicts preserve it. -/
inductive JValue where
  | null
  | jbool : Bool → JValue
  | num : Int → JValue
  | str : Str → JValue
  | arr : List JValue → JValue
  | obj : List (Str × JValue) → JValue
  deriving Repr

/-- Python truthiness of a JSON value (`if not alert_data`, `and alert_data['symbol']`). -/
def JValue.truthy : JValue → Bool
  | .null => false
  | .jbool b => b
  | .num n => n != 0
  | .str s => !s.isEmpty
  | .arr l => !l.isEmpty
  | .obj d => !d.isEmpty

/-- Whether a JSON value is an object (a Python dict). -/
def JValue.isObj : JValue → Bool
  | .obj _ => true
  | _ => false

/-- A Python dict of JSON values, in insertion order. -/
abbrev AlertData := List (Str × JValue)

/-- Python `d[k]` / `d.get(k)` lookup on a dict. -/
def dictGet (d : AlertData) (k : Str) : Option JValue :=
  match d with
  | [] => none
  | p :: rest => if p.1 == k then some p.2 else dictGet rest k

/-- Python `d[k] = v`: replaces the value in place when the key exists,
otherwise appends the new key at the end (insertion-order semantics; dicts
never hold a key twice, so first-occurrence replacement is exact). -/
def dictSet (d : AlertData) (k : Str) (v : JValue) : AlertData :=
  match d with
  | [] => [(k, v)]
  | p :: rest => if p.1 == k then (k, v) :: rest else p :: dictSet rest k v

theorem dictGet_dictSet_same (d : AlertData) (k : Str) (v : JValue) :
    dictGet (dictSet d k v) k = some v := by
  induction d with
  | nil => simp [dictGet, dictSet]
  | cons q qs ih =>
    by_cases hq : q.1 == k
    · simp [dictGet, dictSet, hq]
    · simp [dictGet, dictSet, hq, ih]

theorem dictGet_dictSet_ne (d : AlertData) (k k' : Str) (v : JValue)
    (hne : k' ≠ k) : dictGet (dictSet d k v) k' = dictGet d k' := by
  have hkk : ¬ (k == k') = true := by
    intro hb
    have hkeq : k = k' := by simpa using hb
    exact hne hkeq.symm
  induction d with
  | nil => simp [dictGet, dictSet, hkk]
  | cons q qs ih =>
    by_cases hq : q.1 == k
    · have hq' : ¬ (q.1 == k') = true := by
        have hqk : q.1 = k := by simpa using hq
        simpa [hqk] using hkk
      simp [dictGet, dictSet, hq, hq', hkk]
    · by_cases hq' : q.1 == k'
      · simp [dictGet, dictSet, hq, hq']
      · simp [dictGet, dictSet, hq, hq', ih]

/-! ## Listener variant (`python-backend/webhook_listener.py`) -/

/-- `AlertProcessor.process_alert` (lines 58-90): mutates the incoming dict,
setting its `timestamp` and `processed` keys, appends it to `alerts_received`,
and returns it.  The state is the `alerts_received` list; the logging and
console display have no effect on the data. -/
def process_alert (st : List AlertData) (alert_data : AlertData) (timestamp : Str) :
    List AlertData × AlertData :=
  let a1 := dictSet alert_data "timestamp".toList (.str timestamp)
  let a2 := dictSet a1 "processed".toList (.jbool false)
  (st ++ [a2], a2)

/-- `AlertProcessor.print_alert_details` (lines 92-116), reduced to its only
data-relevant effect: when the `symbol` key is present and truthy it invokes
`parse_symbol_info` on it and displays the result.  Returns the displayed
descriptor, `none` when the decomposer is not invoked.  A non-string truthy
symbol raises `TypeError` inside `parse_symbol_info`'s `try`, degrading to the
empty descriptor. -/
def print_alert_details (alert_data : AlertData) : Option InstrumentDescriptor :=
  match dictGet alert_data "symbol".toList with
  | some v =>
    if v.truthy then
      some (match v with
            | .str s => parse_symbol_info s
            | _ => emptyDescriptor)
    else none
  | none => none

/-- Python `l[i:]`: drops `i` from the front when `i ≥ 0`, else keeps the last
`min(-i, len l)` elements. -/
def pySliceFrom (i : Int) (l : List α) : List α :=
  if 0 ≤ i then l.drop i.toNat else l.drop ((l.length : Int) + i).toNat

/-- `AlertProcessor.get_recent_alerts` (lines 183-193):
`self.alerts_received[-count:] if self.alerts_received else []`. -/
def get_recent_alerts (st : List AlertData) (count : Int) : List AlertData :=
  if st.isEmpty then [] else pySliceFrom (-count) st

/-- Total alert count as `/status` reports it: `len(alerts_received)`. -/
def status_total (st : List AlertData) : Nat := st.length

/-- Response of the listener's `/webhook` route, keeping the fields the claims
are about. -/
structure ListenerResp where
  statusCode : Nat
  alertId : Option Nat
  error : Bool
  deriving DecidableEq, Repr

/-- The `webhook` route handler (lines 216-273).  `alert_data` is what
`request.get_json()` produced (`none` when no data could be read).  A falsy
value (including `{}`) is rejected with 400; a truthy non-dict raises
`TypeError` inside `process_alert`, caught by the handler's `except` → 500,
state unchanged.  On success `alert_id = len(alerts_received)` after the
append. -/
def webhook (st : List AlertData) (alert_data : Option JValue) (timestamp : Str) :
    List AlertData × ListenerResp :=
  match alert_data with
  | none => (st, { statusCode := 400, alertId := none, error := true })
  | some v =>
    if !v.truthy then
      (st, { statusCode := 400, alertId := none, error := true })
    else
      match v with
      | .obj d =>
        let st' := (process_alert st d timestamp).1
        (st', { statusCode := 200, alertId := some st'.length, error := false })
      | _ => (st, { statusCode := 500, alertId := none, error := true })

/-- Sequential ingestion of a list of (payload, timestamp) requests through the
`webhook` handler, collecting the final state and the per-request responses. -/
def run_webhooks (st : List AlertData) : List (AlertData × Str) → List AlertData × List ListenerResp
  | [] => (st, [])
  | (d, ts) :: rest =>
    let next := webhook st (some (.obj d)) ts
    let result := run_webhooks next.1 rest
    (result.1, next.2 :: result.2)

/-! ## Serverless variant (`tradingview-webhook-aws/lambda_function.py`) -/

/-- The normalized record built by `process_trading_alert` (lines 64-78).
Field values come from `alert_data.get(...)` and may be of any JSON type;
`processed` is the literal boolean the source writes. -/
structure TradeRecord where
  timestamp : Str
  processed : Bool
  alert_name : JValue
  symbol : JValue
  limit_price : JValue
  capital_percent : JValue
  lot_size : JValue
  order_slicing_value : JValue
  total_quantity : JValue
  raw_data : JValue
  deriving Repr

/-- Python `x.get(k, default)`: succeeds only when `x` is a dict, else raises
`AttributeError` (surfaced as `.error`). -/
def pyGetAttr (v : JValue) (k : Str) (dflt : JValue) : Except Unit JValue :=
  match v with
  | .obj fields => .ok ((dictGet fields k).getD dflt)
  | _ => .error ()

/-- `process_trading_alert` (lambda_function.py lines 64-78): builds the
normalized record from `alert_data.get` calls with the source's defaults and
`'processed': True`, keeping `raw_data = alert_data` itself.  Faults (e.g.
`alert_data` is not a dict) propagate to the caller. -/
def process_trading_alert (alert_data : JValue) (now : Str) : Except Unit TradeRecord := do
  let an ← pyGetAttr alert_data "ALERTNAME".toList (.str "UNKNOWN".toList)
  let sym ← pyGetAttr alert_data "symbol".toList (.str "".toList)
  let lp ← pyGetAttr alert_data "limit_price".toList (.str "0".toList)
  let cp ← pyGetAttr alert_data "capital_percent".toList (.str "0".toList)
  let ls ← pyGetAttr alert_data "lot_size".toList (.str "0".toList)
  let osv ← pyGetAttr alert_data "order_slicing_value".toList (.str "0".toList)
  let tq ← pyGetAttr alert_data "total_quantity".toList (.str "0".toList)
  return { timestamp := now, processed := true, alert_name := an, symbol := sym,
           limit_price := lp, capital_percent := cp, lot_size := ls,
           order_slicing_value := osv, total_quantity := tq, raw_data := alert_data }

/-- One item of the DynamoDB table, with the attribute names of `db_item`
(lines 84-97). -/
structure DbItem where
  AlertID : Str
  Timestamp : Str
  AlertName : JValue
  Symbol : JValue
  LimitPrice : JValue
  CapitalPercent : JValue
  LotSize : JValue
  OrderSlicingValue : JValue
  TotalQuantity : JValue
  Processed : Bool
  RawData : JValue
  TTL : Nat
  deriving Repr

/-- `store_alert_in_db` (lines 80-105).  `nowId` stands for
`datetime.utcnow().strftime('%Y%m%d_%H%M%S')`, `hashTs` for
`abs(hash(alert_data['timestamp']))`, `nowEpoch` for
`datetime.utcnow().timestamp()` — opaque environment readings.  `putOk` is
whether `table.put_item` succeeds; on failure the `except` branch catches the
fault and returns a `storage_error_` id, with nothing recorded as stored.
Returns the id handed back to the caller and the list of items written. -/
def store_alert_in_db (alert_data : TradeRecord) (nowId : Str) (hashTs : Nat)
    (nowEpoch : Nat) (putOk : Bool) : Str × List DbItem :=
  let alert_id := "alert_".toList ++ nowId ++ "_".toList ++
    (Nat.toDigits 10 (hashTs % 10000))
  let db_item : DbItem :=
    { AlertID := alert_id, Timestamp := alert_data.timestamp,
      AlertName := alert_data.alert_name, Symbol := alert_data.symbol,
      LimitPrice := alert_data.limit_price,
      CapitalPercent := alert_data.capital_percent,
      LotSize := alert_data.lot_size,
      OrderSlicingValue := alert_data.order_slicing_value,
      TotalQuantity := alert_data.total_quantity,
      Processed := alert_data.processed, RawData := alert_data.raw_data,
      TTL := nowEpoch + 30 * 24 * 3600 }
  if putOk then (alert_id, [db_item])
  else ("storage_error_".toList ++ nowId, [])

/-- The JSON envelope the lambda answers with, keeping the fields the claims
are about (`create_error_response` sets `'error': True` and a message; the
success body sets `'status': 'success'` and the alert id). -/
structure Resp where
  statusCode : Nat
  error : Bool
  status : Option Str
  alertId : Option Str
  message : Str
  deriving Repr

/-- `create_error_response` (lines 154-163). -/
def create_error_response (status_code : Nat) (message : Str) : Resp :=
  { statusCode := status_code, error := true, status := none, alertId := none,
    message := message }

/-- `handle_webhook` (lines 32-62).  `body` is `event['body']` (`none` when the
key is missing); `decoded` is the outcome of `json.loads(body)` — `none` for a
`JSONDecodeError`, the stdlib parser being an external collaborator.  Any
fault from `process_trading_alert` is caught by the outer `except` → 500.
Returns the response and the items written to the durable store. -/
def handle_webhook (body : Option Str) (decoded : Option JValue) (now : Str)
    (nowId : Str) (hashTs : Nat) (nowEpoch : Nat) (putOk : Bool) :
    Resp × List DbItem :=
  match body with
  | none => (create_error_response 400 "No data received".toList, [])
  | some b =>
    if b.isEmpty then
      (create_error_response 400 "No data received".toList, [])
    else
      match decoded with
      | none => (create_error_response 400 "Invalid JSON format".toList, [])
      | some alert_data =>
        match process_trading_alert alert_data now with
        | .error _ => (create_error_response 500 "Processing error".toList, [])
        | .ok processed_alert =>
          let stored := store_alert_in_db processed_alert nowId hashTs nowEpoch putOk
          ({ statusCode := 200, error := false, status := some "success".toList,
             alertId := some stored.1,
             message := "TradingView alert received and processed".toList },
           stored.2)

/-! ## Claim C2 — decomposition round-trip -/

theorem digit_ne_marker {c : Char} (h : c.isDigit = true) : c ≠ 'P' ∧ c ≠ 'C' := by
  constructor
  · intro he
    subst he
    exact absurd h (by decide)
  · intro he
    subst he
    exact absurd h (by decide)

/-- C2: for every string of the form `{U}{6 digits}{P|C}{digits}` where `U`
contains no `P` and no `C`, `parse_symbol_info` recovers `underlying = U`,
`expiry` = the 6 digits, `optionType` = PUT for marker `P` / CALL for `C`, and
`strike` = the trailing digits. -/
theorem parse_symbol_info_roundtrip (U e strike : Str) (m : Char)
    (hU : ∀ ch ∈ U, ch ≠ 'P' ∧ ch ≠ 'C')
    (helen : e.length = 6) (he : ∀ ch ∈ e, ch.isDigit)
    (hs : ∀ ch ∈ strike, ch.isDigit)
    (hm : m = 'P' ∨ m = 'C') :
    parse_symbol_info (U ++ e ++ m :: strike) =
      { underlying := U, expiry := e,
        optionType := if m = 'P' then .PUT else .CALL, strike := strike } := by
  have hPU : 'P' ∉ U := fun hmem => (hU _ hmem).1 rfl
  have hCU : 'C' ∉ U := fun hmem => (hU _ hmem).2 rfl
  have hPe : 'P' ∉ e := fun hmem => (digit_ne_marker (he _ hmem)).1 rfl
  have hCe : 'C' ∉ e := fun hmem => (digit_ne_marker (he _ hmem)).2 rfl
  have hPs : 'P' ∉ strike := fun hmem => (digit_ne_marker (hs _ hmem)).1 rfl
  have hCs : 'C' ∉ strike := fun hmem => (digit_ne_marker (hs _ hmem)).2 rfl
  have hassoc : U ++ e ++ m :: strike = (U ++ e) ++ m :: strike := by
    simp [List.append_assoc]
  rcases hm with hm | hm
  · subst hm
    have hPUe : 'P' ∉ U ++ e := by
      simp [List.mem_append, hPU, hPe]
    have hmem : 'P' ∈ U ++ e ++ 'P' :: strike := by simp
    have hsplit : splitOnChar 'P' ((U ++ e) ++ 'P' :: strike) = [U ++ e, strike] :=
      splitOnChar_single hPUe hPs
    have hlen : 6 ≤ (U ++ e).length := by
      simp [List.length_append, helen]
    rw [hassoc] at hmem ⊢
    simp only [parse_symbol_info, if_pos hmem, hsplit, if_pos hlen]
    have htake : (U ++ e).take ((U ++ e).length - 6) = U := by
      have hul : (U ++ e).length - 6 = U.length := by
        simp [List.length_append, helen]
      rw [hul]
      exact List.take_left U e
    have hdrop : (U ++ e).drop ((U ++ e).length - 6) = e := by
      have hul : (U ++ e).length - 6 = U.length := by
        simp [List.length_append, helen]
      rw [hul]
      exact List.drop_left U e
    rw [List.length_append] at htake hdrop
    simp [htake, hdrop]
  · subst hm
    have hPsym : 'P' ∉ (U ++ e) ++ 'C' :: strike := by
      simp [List.mem_append, hPU, hPe, hPs]
    have hCUe : 'C' ∉ U ++ e := by
      simp [List.mem_append, hCU, hCe]
    have hmem : 'C' ∈ (U ++ e) ++ 'C' :: strike := by simp
    have hsplit : splitOnChar 'C' ((U ++ e) ++ 'C' :: strike) = [U ++ e, strike] :=
      splitOnChar_single hCUe hCs
    have hlen : 6 ≤ (U ++ e).length := by
      simp [List.length_append, helen]
    rw [hassoc]
    simp only [parse_symbol_info, if_neg hPsym, if_pos hmem, hsplit, if_pos hlen]
    have htake : (U ++ e).take ((U ++ e).length - 6) = U := by
      have hul : (U ++ e).length - 6 = U.length := by
        simp [List.length_append, helen]
      rw [hul]
      exact List.take_left U e
    have hdrop : (U ++ e).drop ((U ++ e).length - 6) = e := by
      have hul : (U ++ e).length - 6 = U.length := by
        simp [List.length_append, helen]
      rw [hul]
      exact List.drop_left U e
    rw [List.length_append] at htake hdrop
    simp [htake, hdrop]

/-- Witness for C2: the round-trip applied to `NIFTY` ++ `250930` ++ `P` ++
`25800`, the spec's example symbol. -/
theorem parse_symbol_info_roundtrip_witness :
    parse_symbol_info ("NIFTY".toList ++ "250930".toList ++ 'P' :: "25800".toList) =
      { underlying := "NIFTY".toList, expiry := "250930".toList,
        optionType := if 'P' = 'P' then .PUT else .CALL,
        strike := "25800".toList } :=
  parse_symbol_info_roundtrip "NIFTY".toList "250930".toList "25800".toList 'P'
    (by decide) (by decide) (by decide) (by decide) (Or.inl rfl)

/-! ## Claim C3 — ambiguity safety -/

theorem parse_symbol_info_unknown_empty (t : Str)
    (h : (parse_symbol_info t).optionType = OptionType.UNKNOWN) :
    parse_symbol_info t = emptyDescriptor := by
  by_cases hP : 'P' ∈ t
  · rcases hsp : splitOnChar 'P' t with _ | ⟨a, _ | ⟨b, _ | ⟨c, rest⟩⟩⟩
    · simp [parse_symbol_info, hP, hsp]
    · simp [parse_symbol_info, hP, hsp]
    · simp only [parse_symbol_info, if_pos hP, hsp] at h
      split at h <;> simp_all
    · simp [parse_symbol_info, hP, hsp]
  · by_cases hC : 'C' ∈ t
    · rcases hsp : splitOnChar 'C' t with _ | ⟨a, _ | ⟨b, _ | ⟨c, rest⟩⟩⟩
      · simp [parse_symbol_info, hP, hC, hsp]
      · simp [parse_symbol_info, hP, hC, hsp]
      · simp only [parse_symbol_info, if_neg hP, if_pos hC, hsp] at h
        split at h <;> simp_all
      · simp [parse_symbol_info, hP, hC, hsp]
    · simp [parse_symbol_info, hP, hC]

/-- C3: for every symbol in which `P` occurs two or more times the decomposer
yields the UNKNOWN descriptor with underlying, expiry and strike all empty
(the `P` branch wins before any `C` resolution, its two-way split fails, and
the resulting `UnboundLocalError` lands in the `except` handler); and on every
input whatsoever the decomposer returns a descriptor instead of propagating a
fault — every UNKNOWN result is the all-empty descriptor. -/
theorem parse_symbol_info_ambiguous (s : Str) (h : 2 ≤ s.count 'P') :
    parse_symbol_info s = emptyDescriptor ∧
    ∀ t : Str, (parse_symbol_info t).optionType = OptionType.UNKNOWN →
      parse_symbol_info t = emptyDescriptor := by
  refine ⟨?_, fun t ht => parse_symbol_info_unknown_empty t ht⟩
  have hmem : 'P' ∈ s := List.count_pos_iff.mp (by omega)
  have hlen : 3 ≤ (splitOnChar 'P' s).length := by
    rw [splitOnChar_length]
    omega
  rcases hsp : splitOnChar 'P' s with _ | ⟨a, _ | ⟨b, _ | ⟨c, rest⟩⟩⟩ <;>
    rw [hsp] at hlen
  · simp at hlen
  · simp at hlen
  · simp at hlen
  · simp [parse_symbol_info, hmem, hsp]

/-- Witness for C3: the two-`P` symbol `PXP` decomposes to the empty
descriptor. -/
theorem parse_symbol_info_ambiguous_witness :
    parse_symbol_info "PXP".toList = emptyDescriptor :=
  (parse_symbol_info_ambiguous "PXP".toList (by decide)).1

/-! ## Claim C4 — append monotonicity -/

/-- The record `process_alert` builds from a payload and a timestamp (the
payload dict after its `timestamp` and `processed` mutations). -/
def normRecord (d : AlertData) (ts : Str) : AlertData :=
  dictSet (dictSet d "timestamp".toList (.str ts)) "processed".toList (.jbool false)

theorem process_alert_split (st : List AlertData) (d : AlertData) (ts : Str) :
    process_alert st d ts = (st ++ [normRecord d ts], normRecord d ts) := rfl

theorem webhook_truthy_obj (st : List AlertData) (d : AlertData) (ts : Str)
    (hd : d ≠ []) :
    webhook st (some (.obj d)) ts =
      (st ++ [normRecord d ts],
       { statusCode := 200, alertId := some (st.length + 1), error := false }) := by
  simp [webhook, JValue.truthy, hd, process_alert_split, List.length_append]

theorem run_webhooks_resp_length (reqs : List (AlertData × Str)) :
    ∀ st, ((run_webhooks st reqs).2).length = reqs.length := by
  induction reqs with
  | nil => intro st; rfl
  | cons r rest ih =>
    intro st
    obtain ⟨d, ts⟩ := r
    simp only [run_webhooks, List.length_cons, ih]

theorem run_webhooks_state (reqs : List (AlertData × Str)) :
    ∀ st, (∀ r ∈ reqs, r.1 ≠ []) →
      (run_webhooks st reqs).1 = st ++ reqs.map (fun r => normRecord r.1 r.2) := by
  induction reqs with
  | nil => intro st _; simp [run_webhooks]
  | cons r rest ih =>
    intro st htruthy
    obtain ⟨d, ts⟩ := r
    have hd : d ≠ [] := htruthy (d, ts) (List.mem_cons_self _ _)
    have hrest : ∀ r ∈ rest, r.1 ≠ [] :=
      fun r hr => htruthy r (List.mem_cons_of_mem _ hr)
    simp only [run_webhooks, webhook_truthy_obj st d ts hd, ih _ hrest,
      List.map_cons, List.append_assoc, List.singleton_append]

theorem run_webhooks_resps (reqs : List (AlertData × Str)) :
    ∀ st, (∀ r ∈ reqs, r.1 ≠ []) →
      ∀ k, k < reqs.length →
        ((run_webhooks st reqs).2)[k]? =
          some { statusCode := 200, alertId := some (st.length + k + 1),
                 error := false } := by
  induction reqs with
  | nil =>
    intro st _ k hk
    simp at hk
  | cons r rest ih =>
    intro st htruthy k hk
    obtain ⟨d, ts⟩ := r
    have hd : d ≠ [] := htruthy (d, ts) (List.mem_cons_self _ _)
    have hrest : ∀ r ∈ rest, r.1 ≠ [] :=
      fun r hr => htruthy r (List.mem_cons_of_mem _ hr)
    cases k with
    | zero =>
      simp [run_webhooks, webhook_truthy_obj st d ts hd]
    | succ k =>
      have hk' : k < rest.length := by
        simpa using Nat.lt_of_succ_lt_succ hk
      have hih := ih (st ++ [normRecord d ts]) hrest k hk'
      simp only [List.length_append, List.length_singleton] at hih
      simp only [run_webhooks, webhook_truthy_obj st d ts hd,
        List.getElem?_cons_succ]
      rw [hih]
      congr 3
      omega

theorem get_recent_full (st : List AlertData) :
    get_recent_alerts st (st.length : Int) = st := by
  unfold get_recent_alerts pySliceFrom
  by_cases h : st.isEmpty
  · rw [List.isEmpty_iff] at h
    simp [h]
  · rw [if_neg (by simpa using h)]
    by_cases h0 : (0 : Int) ≤ -(st.length : Int)
    · have hz : st.length = 0 := by omega
      rw [List.length_eq_zero] at hz
      simp [hz]
    · rw [if_neg h0]
      have hz : ((st.length : Int) + -(st.length : Int)).toNat = 0 := by omega
      simp [hz]

/-- C4: after `N` sequential successful ingestions through the `webhook`
handler starting from an empty log, the total reported by `/status` equals
`N`, the `alert_id` returned for the `k`-th ingestion is `k` (1-based,
monotonically increasing), and `get_recent_alerts N` returns all `N` records
in arrival order, newest-last. -/
theorem append_monotonicity (reqs : List (AlertData × Str))
    (htruthy : ∀ r ∈ reqs, r.1 ≠ []) :
    status_total (run_webhooks [] reqs).1 = reqs.length ∧
    (∀ k, k < reqs.length →
      ((run_webhooks [] reqs).2)[k]? =
        some { statusCode := 200, alertId := some (k + 1), error := false }) ∧
    get_recent_alerts (run_webhooks [] reqs).1 (reqs.length : Int) =
      (run_webhooks [] reqs).1 := by
  have hstate := run_webhooks_state reqs [] htruthy
  have hlen : (run_webhooks [] reqs).1.length = reqs.length := by
    rw [hstate]
    simp
  refine ⟨by simpa [status_total] using hlen, ?_, ?_⟩
  · intro k hk
    simpa using run_webhooks_resps reqs [] htruthy k hk
  · rw [← hlen]
    exact get_recent_full _

/-- Witness for C4: two concrete ingestions yield total 2, ids 1 and 2, and
`recent(2)` returning both records in order. -/
theorem append_monotonicity_witness :
    status_total (run_webhooks []
      [([("ALERTNAME".toList, JValue.str "A1".toList)], "t1".toList),
       ([("ALERTNAME".toList, JValue.str "A2".toList)], "t2".toList)]).1 = 2 :=
  (append_monotonicity
    [([("ALERTNAME".toList, JValue.str "A1".toList)], "t1".toList),
     ([("ALERTNAME".toList, JValue.str "A2".toList)], "t2".toList)]
    (by simp)).1

/-! ## Claim C5 — recent clamping -/

/-- C5 (code-bug evidence): with one stored record, `recent(0)` returns the
whole log — `alerts_received[-0:]` in the source is `alerts_received[0:]`,
the full list — instead of the empty sequence that `min(0, count())` records
would allow.  No clamping of the caller-supplied count exists anywhere on the
`/alerts` path. -/
theorem get_recent_zero_returns_all :
    get_recent_alerts [[("k".toList, JValue.null)]] 0 =
      [[("k".toList, JValue.null)]] := rfl

/-! ## Claim C1 — end-to-end ingestion scenario -/

/-- The spec's end-to-end scenario payload, in field order. -/
def c1payload : AlertData :=
  [("ALERTNAME".toList, .str "NEW BUY ORDER".toList),
   ("symbol".toList, .str "NIFTY250930P25800".toList),
   ("limit_price".toList, .str "25800".toList),
   ("capital_percent".toList, .str "50".toList),
   ("lot_size".toList, .str "75".toList),
   ("order_slicing_value".toList, .str "1800".toList)]

/-- The record the listener stores for `c1payload`: the payload itself with
`timestamp` and `processed` appended by `process_alert`. -/
def c1record (ts : Str) : AlertData :=
  c1payload ++ [("timestamp".toList, .str ts), ("processed".toList, .jbool false)]

/-- C1 counterexample: after ingesting the scenario payload, the single record
that `recent(1)` returns carries no `optionType`, `underlying`, `expiry` or
`strike` key at all — the decomposition result is never attached to the
record made available to callers. -/
theorem c1_decomposition_not_attached :
    get_recent_alerts (webhook [] (some (.obj c1payload)) "0".toList).1 1 =
      [c1record "0".toList] ∧
    dictGet (c1record "0".toList) "optionType".toList = none ∧
    dictGet (c1record "0".toList) "underlying".toList = none ∧
    dictGet (c1record "0".toList) "expiry".toList = none ∧
    dictGet (c1record "0".toList) "strike".toList = none :=
  ⟨rfl, rfl, rfl, rfl, rfl⟩

/-- C1 (amended): ingesting the scenario payload succeeds with 200;
`recent(1)` returns exactly the stored record — the original payload plus
`timestamp` and `processed` — and the Symbol Decomposer, which
`process_alert` invokes on that record's symbol for console display, yields
`optionType = PUT`, `underlying = NIFTY`, `expiry = 250930`,
`strike = 25800`; the decomposition is displayed, not attached. -/
theorem c1_scenario (ts : Str) :
    (webhook [] (some (.obj c1payload)) ts).2.statusCode = 200 ∧
    get_recent_alerts (webhook [] (some (.obj c1payload)) ts).1 1 =
      [c1record ts] ∧
    print_alert_details (c1record ts) =
      some { underlying := "NIFTY".toList, expiry := "250930".toList,
             optionType := .PUT, strike := "25800".toList } :=
  ⟨rfl, rfl, rfl⟩

/-! ## Claim C6 — missing-field defaulting and the processed flag -/

/-- C6 counterexample: the durable variant creates its records with
`processed = True` (lambda_function.py line 69), not false. -/
theorem c6_processed_true_counterexample :
    (process_trading_alert (.obj []) "t0".toList).map (·.processed) =
      .ok true := rfl

/-- C6 (amended): ingesting `{}` in the durable variant is accepted and
produces the defaulted record — `alert_name = "UNKNOWN"`, `symbol = ""`,
every numeric-ish field `"0"` — but with `processed = true`; records created
by the listener's ingestion are initialized with `processed = false`. -/
theorem c6_empty_object_defaults (now : Str) :
    process_trading_alert (.obj []) now =
      .ok { timestamp := now, processed := true,
            alert_name := .str "UNKNOWN".toList, symbol := .str "".toList,
            limit_price := .str "0".toList, capital_percent := .str "0".toList,
            lot_size := .str "0".toList, order_slicing_value := .str "0".toList,
            total_quantity := .str "0".toList, raw_data := .obj [] } ∧
    ∀ (st : List AlertData) (d : AlertData) (ts : Str),
      dictGet (process_alert st d ts).2 "processed".toList =
        some (.jbool false) :=
  ⟨rfl, fun _ d ts => dictGet_dictSet_same (dictSet d "timestamp".toList (.str ts)) _ _⟩

/-! ## Claim C9 — raw payload retention -/

/-- C9 counterexample: listener normalization overwrites the original
payload's own `processed` key in place. -/
theorem c9_overwrites_counterexample :
    dictGet [("processed".toList, JValue.jbool true)] "processed".toList =
      some (.jbool true) ∧
    dictGet (process_alert [] [("processed".toList, JValue.jbool true)]
        "t0".toList).2 "processed".toList = some (.jbool false) :=
  ⟨rfl, rfl⟩

/-- C9 (amended): the durable variant retains the original payload verbatim
under `raw_data`; the listener variant stores the payload object itself,
adding or overwriting only its `timestamp` and `processed` keys — every other
key of the original payload is retained unchanged. -/
theorem c9_raw_retention (v : JValue) (now : Str) (st : List AlertData)
    (d : AlertData) (ts k : Str) (hv : v.isObj = true)
    (hk1 : k ≠ "timestamp".toList) (hk2 : k ≠ "processed".toList) :
    (process_trading_alert v now).map (·.raw_data) = .ok v ∧
    dictGet (process_alert st d ts).2 k = dictGet d k := by
  constructor
  · cases v with
    | obj fields => rfl
    | null => simp [JValue.isObj] at hv
    | jbool b => simp [JValue.isObj] at hv
    | num n => simp [JValue.isObj] at hv
    | str s => simp [JValue.isObj] at hv
    | arr l => simp [JValue.isObj] at hv
  · show dictGet (dictSet (dictSet d "timestamp".toList (.str ts))
      "processed".toList (.jbool false)) k = dictGet d k
    rw [dictGet_dictSet_ne _ _ _ _ hk2, dictGet_dictSet_ne _ _ _ _ hk1]

/-- Witness for C9 (amended), at `{}` for the durable part and a one-key
payload for the listener part. -/
theorem c9_raw_retention_witness :
    (process_trading_alert (.obj []) "t0".toList).map (·.raw_data) =
      .ok (.obj []) ∧
    dictGet (process_alert [] [("symbol".toList, JValue.null)] "t0".toList).2
        "symbol".toList =
      dictGet [("symbol".toList, JValue.null)] "symbol".toList :=
  c9_raw_retention (.obj []) "t0".toList [] [("symbol".toList, JValue.null)]
    "t0".toList "symbol".toList rfl (by decide) (by decide)

/-! ## Claim C7 — body validation -/

/-- C7: for every Ingest request whose body is absent, empty, or fails JSON
parsing, the durable handler answers 400 with the structured error envelope
and nothing is persisted; a 500 answer only arises on a non-empty body that
parsed successfully.  (The listener's `webhook` performs the same `not
alert_data` check at the framework boundary; see `webhook`.) -/
theorem handle_webhook_validation (body : Option Str) (decoded : Option JValue)
    (now nowId : Str) (hashTs nowEpoch : Nat) (putOk : Bool) :
    ((body = none ∨ body = some [] ∨ decoded = none) →
      (handle_webhook body decoded now nowId hashTs nowEpoch putOk).1.statusCode = 400 ∧
      (handle_webhook body decoded now nowId hashTs nowEpoch putOk).1.error = true ∧
      (handle_webhook body decoded now nowId hashTs nowEpoch putOk).2 = []) ∧
    ((handle_webhook body decoded now nowId hashTs nowEpoch putOk).1.statusCode = 500 →
      ∃ b v, body = some b ∧ b ≠ [] ∧ decoded = some v) := by
  constructor
  · rintro (rfl | rfl | rfl)
    · exact ⟨rfl, rfl, rfl⟩
    · exact ⟨rfl, rfl, rfl⟩
    · cases body with
      | none => exact ⟨rfl, rfl, rfl⟩
      | some b =>
        by_cases hb : b.isEmpty <;>
          simp [handle_webhook, create_error_response, hb]
  · intro h500
    cases body with
    | none => simp [handle_webhook, create_error_response] at h500
    | some b =>
      by_cases hb : b.isEmpty
      · simp [handle_webhook, create_error_response, hb] at h500
      · cases decoded with
        | none => simp [handle_webhook, create_error_response, hb] at h500
        | some v =>
          refine ⟨b, v, rfl, ?_, rfl⟩
          intro hbe
          exact hb (by simp [hbe])

/-- Witness for C7: the absent-body request is answered 400 and persists
nothing. -/
theorem handle_webhook_validation_witness :
    (handle_webhook none none "t".toList "u".toList 0 0 true).1.statusCode = 400 ∧
    (handle_webhook none none "t".toList "u".toList 0 0 true).2 = [] :=
  ⟨((handle_webhook_validation none none "t".toList "u".toList 0 0 true).1
      (Or.inl rfl)).1,
   ((handle_webhook_validation none none "t".toList "u".toList 0 0 true).1
      (Or.inl rfl)).2.2⟩

/-! ## Claim C8 — storage faults -/

/-- C8 counterexample: with the durable-store put failing (`table.put_item`
raising), the handler still answers 200 with `status = "success"` — the
failed append is reported to the caller as a success, not a server error. -/
theorem storage_fault_reported_success_counterexample :
    (handle_webhook (some "x".toList) (some (.obj [])) "t".toList "u".toList
        0 0 false).1.statusCode = 200 ∧
    (handle_webhook (some "x".toList) (some (.obj [])) "t".toList "u".toList
        0 0 false).1.status = some "success".toList :=
  ⟨rfl, rfl⟩

/-- C8 (amended): when the durable-store put raises, `store_alert_in_db`
catches the fault internally and returns a `storage_error_`-prefixed id in
place of the alert id; the handler then reports 200 success carrying that id,
and nothing is persisted. -/
theorem storage_fault_swallowed (b : Str) (hb : b ≠ []) (d : AlertData)
    (now nowId : Str) (hashTs nowEpoch : Nat) :
    (handle_webhook (some b) (some (.obj d)) now nowId hashTs nowEpoch
        false).1.statusCode = 200 ∧
    (handle_webhook (some b) (some (.obj d)) now nowId hashTs nowEpoch
        false).1.status = some "success".toList ∧
    (handle_webhook (some b) (some (.obj d)) now nowId hashTs nowEpoch
        false).1.alertId = some ("storage_error_".toList ++ nowId) ∧
    (handle_webhook (some b) (some (.obj d)) now nowId hashTs nowEpoch
        false).2 = [] := by
  obtain ⟨x, xs, rfl⟩ : ∃ x xs, b = x :: xs := by
    cases b with
    | nil => exact absurd rfl hb
    | cons x xs => exact ⟨x, xs, rfl⟩
  exact ⟨rfl, rfl, rfl, rfl⟩

/-- Witness for C8 (amended). -/
theorem storage_fault_swallowed_witness :
    (handle_webhook (some "x".toList) (some (.obj [])) "t".toList "u".toList
        0 0 false).2 = [] :=
  (storage_fault_swallowed "x".toList (by decide) [] "t".toList "u".toList
    0 0).2.2.2

/-! ## Claim C10 — non-object JSON bodies -/

theorem process_trading_alert_non_obj (v : JValue) (hv : v.isObj = false)
    (now : Str) : process_trading_alert v now = .error () := by
  cases v with
  | obj fields => simp [JValue.isObj] at hv
  | null => rfl
  | jbool b => rfl
  | num n => rfl
  | str s => rfl
  | arr l => rfl

/-- C10: in the durable variant, a non-empty body that parses to a non-object
JSON value (null, a number, an array, ...) is not rejected as 400: both body
checks pass, the field-extraction in `process_trading_alert` faults
(`.get` on a non-dict), and the request is answered 500 with nothing
persisted. -/
theorem handle_webhook_non_object (b : Str) (hb : b ≠ []) (v : JValue)
    (hv : v.isObj = false) (now nowId : Str) (hashTs nowEpoch : Nat)
    (putOk : Bool) :
    (handle_webhook (some b) (some v) now nowId hashTs nowEpoch
        putOk).1.statusCode = 500 ∧
    (handle_webhook (some b) (some v) now nowId hashTs nowEpoch
        putOk).1.error = true ∧
    (handle_webhook (some b) (some v) now nowId hashTs nowEpoch putOk).2 = [] := by
  obtain ⟨x, xs, rfl⟩ : ∃ x xs, b = x :: xs := by
    cases b with
    | nil => exact absurd rfl hb
    | cons x xs => exact ⟨x, xs, rfl⟩
  have hpe := process_trading_alert_non_obj v hv now
  refine ⟨?_, ?_, ?_⟩ <;>
    simp [handle_webhook, hpe, create_error_response]

/-- Witness for C10: the body `null` is answered 500 with nothing stored. -/
theorem handle_webhook_non_object_witness :
    (handle_webhook (some "null".toList) (some .null) "t".toList "u".toList
        0 0 true).1.statusCode = 500 :=
  (handle_webhook_non_object "null".toList (by decide) .null rfl "t".toList
    "u".toList 0 0 true).1
